import Mathlib

/-!
Shallow embedding of the padel "retas" standings engine: the functions
`calculateMatchStats`, `pairsWithStats` and `sortedPairs` from
`src/components/RealTimeStandingsTable.tsx`, and `getMatchWinner` from
`src/components/MatchCardWithResults.tsx`.

Modelling conventions.  Numeric game fields arrive from the JSON data
layer and may be unset (SQL NULL, JavaScript `null`); they are modelled
as `Option Nat`.  JavaScript coerces `null` to `0` in relational
(`>`, `>=`) and arithmetic (`+`) operators, and the explicit `|| 0`
guards in the source also map `null` to `0`, so every numeric access
reads through `numOr0`.  String `localeCompare` is modelled as a
code-point lexicographic three-way comparator (`localeCmp`).
`Array.prototype.sort` is a stable sort consistent with its comparator
and is modelled by the stable `List.mergeSort` on `sortCmp · · ≤ 0`.
-/

namespace PadelRetas

/-- One `Game` row: raw scores of a normal game, tie-break point counts,
and the `is_tie_break` discriminator. -/
structure Game where
  id : String
  match_id : String
  game_number : Nat
  is_tie_break : Bool
  pair1_games : Option Nat
  pair2_games : Option Nat
  tie_break_pair1_points : Option Nat
  tie_break_pair2_points : Option Nat
deriving DecidableEq

/-- One `Match` row; `status` is the string `"finished"` or
`"in_progress"`, compared with `===` in the source. -/
structure Match where
  id : String
  tournament_id : String
  pair1_id : String
  pair2_id : String
  court : Nat
  round : Nat
  status : String
deriving DecidableEq

/-- One `Pair` row with its resolved display names. -/
structure Pair where
  id : String
  tournament_id : String
  player1_id : String
  player2_id : String
  player1_name : String
  player2_name : String
deriving DecidableEq

/-- The per-pair accumulator record used by `pairsWithStats`. -/
structure Stats where
  gamesWon : Nat
  setsWon : Nat
  points : Nat
  matchesPlayed : Nat
deriving DecidableEq

/-- The record returned by `calculateMatchStats`. -/
structure MatchStats where
  pair1GamesWon : Nat
  pair2GamesWon : Nat
  pair1SetsWon : Nat
  pair2SetsWon : Nat
  pair1TotalPoints : Nat
  pair2TotalPoints : Nat
deriving DecidableEq

/-- A standings row: the pair spread together with its accumulated
statistics (`{...pair, ...stats}` in the source). -/
structure PairWithStats where
  id : String
  tournament_id : String
  player1_id : String
  player2_id : String
  player1_name : String
  player2_name : String
  gamesWon : Nat
  setsWon : Nat
  points : Nat
  matchesPlayed : Nat
deriving DecidableEq

/-- The record returned by `getMatchWinner` in
`MatchCardWithResults.tsx`; `winner` is `"pair1"`, `"pair2"` or
`"tie"`. -/
structure MatchWinnerInfo where
  winner : String
  pair1Wins : Nat
  pair2Wins : Nat
deriving DecidableEq

/-- A JavaScript read of a possibly-null numeric field: `null` coerces
to `0` under the relational and arithmetic operators used by the
source, and the `|| 0` guards map `null` to `0` as well. -/
def numOr0 (o : Option Nat) : Nat := o.getD 0

/-- The all-zero accumulator every pair starts from. -/
def zeroStats : Stats := ⟨0, 0, 0, 0⟩

/-- The body of the `games.forEach` loop in `calculateMatchStats`:
the contribution of one game added onto the running totals. -/
def gameStep (s : MatchStats) (g : Game) : MatchStats :=
  if g.is_tie_break then
    { s with
      pair1GamesWon := s.pair1GamesWon +
        (if numOr0 g.tie_break_pair1_points > numOr0 g.tie_break_pair2_points then 1 else 0),
      pair2GamesWon := s.pair2GamesWon +
        (if numOr0 g.tie_break_pair2_points > numOr0 g.tie_break_pair1_points then 1 else 0),
      pair1TotalPoints := s.pair1TotalPoints + numOr0 g.tie_break_pair1_points,
      pair2TotalPoints := s.pair2TotalPoints + numOr0 g.tie_break_pair2_points }
  else
    { s with
      pair1GamesWon := s.pair1GamesWon +
        (if numOr0 g.pair1_games > numOr0 g.pair2_games then 1 else 0),
      pair2GamesWon := s.pair2GamesWon +
        (if numOr0 g.pair2_games > numOr0 g.pair1_games then 1 else 0),
      pair1TotalPoints := s.pair1TotalPoints + numOr0 g.pair1_games,
      pair2TotalPoints := s.pair2TotalPoints + numOr0 g.pair2_games,
      pair1SetsWon := s.pair1SetsWon + (if numOr0 g.pair1_games ≥ 6 then 1 else 0),
      pair2SetsWon := s.pair2SetsWon + (if numOr0 g.pair2_games ≥ 6 then 1 else 0) }

/-- `calculateMatchStats` from `RealTimeStandingsTable.tsx`: fold the
per-game contributions over all games of the match (the `match`
argument is received but never read by the source body). -/
def calculateMatchStats (_m : Match) (games : List Game) : MatchStats :=
  games.foldl gameStep ⟨0, 0, 0, 0, 0, 0⟩

/-- The `Map<string, Stats>` of `pairsWithStats`, as a function from
keys to optional values (`none` models a missing key). -/
abbrev StatsMap := String → Option Stats

/-- Mutation of the stats object stored under key `k`, reached through
the reference returned by `Map.get`. -/
def updAt (σ : StatsMap) (k : String) (f : Stats → Stats) : StatsMap :=
  fun x => if x = k then (σ x).map f else σ x

/-- The pair-1 side of the accumulation block in `pairsWithStats`:
`matchesPlayed += 1` and the three stat deltas. -/
def addSide1 (ms : MatchStats) (s : Stats) : Stats :=
  { s with
    matchesPlayed := s.matchesPlayed + 1,
    gamesWon := s.gamesWon + ms.pair1GamesWon,
    setsWon := s.setsWon + ms.pair1SetsWon,
    points := s.points + ms.pair1TotalPoints }

/-- The pair-2 side of the accumulation block in `pairsWithStats`. -/
def addSide2 (ms : MatchStats) (s : Stats) : Stats :=
  { s with
    matchesPlayed := s.matchesPlayed + 1,
    gamesWon := s.gamesWon + ms.pair2GamesWon,
    setsWon := s.setsWon + ms.pair2SetsWon,
    points := s.points + ms.pair2TotalPoints }

/-- The body of the `matches.forEach` loop in `pairsWithStats`: a
finished match with at least one game, both of whose pair ids are
present in the map, adds its aggregate onto both sides' accumulators
(sequential updates reproduce JavaScript reference semantics, including
the aliasing case `pair1_id = pair2_id`). -/
def matchStep (allGames : List Game) (σ : StatsMap) (m : Match) : StatsMap :=
  if m.status = "finished" then
    let matchGames := allGames.filter (fun g => g.match_id == m.id)
    if matchGames.length > 0 then
      let ms := calculateMatchStats m matchGames
      if (σ m.pair1_id).isSome && (σ m.pair2_id).isSome then
        updAt (updAt σ m.pair1_id (addSide1 ms)) m.pair2_id (addSide2 ms)
      else σ
    else σ
  else σ

/-- The initial map of `pairsWithStats`: every pair id bound to the
all-zero accumulator. -/
def pairStatsInit (pairs : List Pair) : StatsMap :=
  fun k => if pairs.any (fun p => p.id == k) then some zeroStats else none

/-- The accumulator map after processing every match of the tournament
(the state of the `pairStats` map when the `matches.forEach` loop of
`pairsWithStats` ends). -/
def pairStatsMap (pairs : List Pair) (ms : List Match) (allGames : List Game) : StatsMap :=
  ms.foldl (matchStep allGames) (pairStatsInit pairs)

/-- Spread of a pair record with its statistics
(`{...pair, ...stats}`). -/
def withStats (p : Pair) (s : Stats) : PairWithStats :=
  { id := p.id, tournament_id := p.tournament_id,
    player1_id := p.player1_id, player2_id := p.player2_id,
    player1_name := p.player1_name, player2_name := p.player2_name,
    gamesWon := s.gamesWon, setsWon := s.setsWon, points := s.points,
    matchesPlayed := s.matchesPlayed }

/-- `pairsWithStats` from `RealTimeStandingsTable.tsx`: early return of
all-zero rows when either input list is empty, otherwise one row per
pair carrying the accumulated statistics (`pairStats.get(pair.id)`
falling back to zeros). -/
def pairsWithStats (pairs : List Pair) (ms : List Match) (allGames : List Game) :
    List PairWithStats :=
  if pairs.length = 0 ∨ ms.length = 0 then
    pairs.map (fun p => withStats p zeroStats)
  else
    pairs.map (fun p => withStats p ((pairStatsMap pairs ms allGames p.id).getD zeroStats))

/-- The concatenated display name used as the final sort key. -/
def displayName (a : PairWithStats) : String :=
  a.player1_name ++ "/" ++ a.player2_name

/-- Model of `String.prototype.localeCompare`: a three-way comparator
realising a total order on strings (code-point lexicographic order
stands in for the locale collation). -/
def localeCmp (s t : String) : Int :=
  if s < t then -1 else if t < s then 1 else 0

/-- The comparator of `sortedPairs`: points descending, then sets won
descending, then games won descending, then ascending comparison of the
concatenated display names. -/
def sortCmp (a b : PairWithStats) : Int :=
  if b.points ≠ a.points then (b.points : Int) - (a.points : Int)
  else if b.setsWon ≠ a.setsWon then (b.setsWon : Int) - (a.setsWon : Int)
  else if b.gamesWon ≠ a.gamesWon then (b.gamesWon : Int) - (a.gamesWon : Int)
  else localeCmp (displayName a) (displayName b)

/-- The Boolean form of the comparator handed to the stable sort:
`a` may come before `b` exactly when the comparator is non-positive. -/
def sortLe (a b : PairWithStats) : Bool := decide (sortCmp a b ≤ 0)

/-- `sortedPairs` composed with `pairsWithStats`: the standings the
component renders (the `computeStandings` of the specification).
`[...pairsWithStats].sort(cmp)` is a stable sort consistent with the
comparator, modelled by `List.mergeSort`. -/
def computeStandings (pairs : List Pair) (ms : List Match) (allGames : List Game) :
    List PairWithStats :=
  (pairsWithStats pairs ms allGames).mergeSort sortLe

/-- The body of the `games.forEach` loop in `getMatchWinner`
(`MatchCardWithResults.tsx`): per-game win counters driven by
`pair1_games` versus `pair2_games` only. -/
def winStep (c : Nat × Nat) (g : Game) : Nat × Nat :=
  if numOr0 g.pair1_games > numOr0 g.pair2_games then (c.1 + 1, c.2)
  else if numOr0 g.pair2_games > numOr0 g.pair1_games then (c.1, c.2 + 1)
  else c

/-- `getMatchWinner` from `MatchCardWithResults.tsx`: `null` on an empty
game list, otherwise the side with strictly more per-game wins, counted
by comparing `pair1_games` with `pair2_games` on every game. -/
def getMatchWinner (games : List Game) : Option MatchWinnerInfo :=
  if games.length = 0 then none
  else
    let c := games.foldl winStep (0, 0)
    if c.1 > c.2 then some ⟨"pair1", c.1, c.2⟩
    else if c.2 > c.1 then some ⟨"pair2", c.1, c.2⟩
    else some ⟨"tie", c.1, c.2⟩

/-! Concrete sample records used by the witness theorems. -/

/-- A sample finished match between pairs `"a"` and `"b"`. -/
def mA : Match := ⟨"m1", "t1", "a", "b", 1, 1, "finished"⟩

/-- A tie-break game scored 7 to 5. -/
def gTB75 : Game := ⟨"g1", "m1", 1, true, none, none, some 7, some 5⟩

/-- A normal game scored 6 to 7. -/
def gN67 : Game := ⟨"g2", "m1", 2, false, some 6, some 7, none, none⟩

/-- C2: a tie-break game credits one game won to exactly the side whose
tie-break point count is strictly greater (equal counts credit neither
side), awards zero set credit to both sides, and contributes the raw
(null-defaulted) tie-break point counts to the points totals. -/
theorem tieBreakGame_stats (m : Match) (g : Game) (h : g.is_tie_break = true) :
    calculateMatchStats m [g] =
      { pair1GamesWon :=
          if numOr0 g.tie_break_pair1_points > numOr0 g.tie_break_pair2_points then 1 else 0,
        pair2GamesWon :=
          if numOr0 g.tie_break_pair2_points > numOr0 g.tie_break_pair1_points then 1 else 0,
        pair1SetsWon := 0, pair2SetsWon := 0,
        pair1TotalPoints := numOr0 g.tie_break_pair1_points,
        pair2TotalPoints := numOr0 g.tie_break_pair2_points } := by
  simp [calculateMatchStats, gameStep, h]

/-- Witness for C2: the 7-to-5 tie-break game yields one game won for
pair 1, no set credit, and 7 and 5 points respectively. -/
theorem tieBreakGame_stats_witness :
    gTB75.is_tie_break = true ∧ calculateMatchStats mA [gTB75] = ⟨1, 0, 0, 0, 7, 5⟩ :=
  ⟨rfl, by rw [tieBreakGame_stats mA gTB75 rfl]; decide⟩

/-- C3: in a normal game each side receives one set credit exactly when
its own game count is at least 6, independently of which side won the
game; the game win goes to the side with the strictly greater count and
points are the raw counts. -/
theorem normalGame_stats (m : Match) (g : Game) (h : g.is_tie_break = false) :
    calculateMatchStats m [g] =
      { pair1GamesWon := if numOr0 g.pair1_games > numOr0 g.pair2_games then 1 else 0,
        pair2GamesWon := if numOr0 g.pair2_games > numOr0 g.pair1_games then 1 else 0,
        pair1SetsWon := if numOr0 g.pair1_games ≥ 6 then 1 else 0,
        pair2SetsWon := if numOr0 g.pair2_games ≥ 6 then 1 else 0,
        pair1TotalPoints := numOr0 g.pair1_games,
        pair2TotalPoints := numOr0 g.pair2_games } := by
  simp [calculateMatchStats, gameStep, h]

/-- Witness for C3: the 6-to-7 normal game gives pair 2 the game win
while both sides receive one set credit. -/
theorem normalGame_stats_witness :
    gN67.is_tie_break = false ∧ calculateMatchStats mA [gN67] = ⟨0, 1, 1, 1, 6, 7⟩ :=
  ⟨rfl, by rw [normalGame_stats mA gN67 rfl]; decide⟩

/-- C10: the interpreter reads every optional numeric field through the
null-to-zero coercion, so replacing each unset field by an explicit zero
leaves its output unchanged (and the interpreter is a total function, so
no game record makes it fail). -/
theorem missing_fields_as_zero (m : Match) (g : Game) :
    calculateMatchStats m
      [{ g with
          pair1_games := some (numOr0 g.pair1_games),
          pair2_games := some (numOr0 g.pair2_games),
          tie_break_pair1_points := some (numOr0 g.tie_break_pair1_points),
          tie_break_pair2_points := some (numOr0 g.tie_break_pair2_points) }] =
    calculateMatchStats m [g] := by
  simp [calculateMatchStats, gameStep, numOr0]

/-- Characterisation of the comparator: strictly negative exactly on the
lexicographic points-sets-games-name chain, zero exactly on full key
equality. -/
lemma sortCmp_char (a b : PairWithStats) :
    (sortCmp a b < 0 ↔
      (b.points < a.points ∨
        (a.points = b.points ∧ b.setsWon < a.setsWon) ∨
        (a.points = b.points ∧ a.setsWon = b.setsWon ∧ b.gamesWon < a.gamesWon) ∨
        (a.points = b.points ∧ a.setsWon = b.setsWon ∧ a.gamesWon = b.gamesWon ∧
          displayName a < displayName b))) ∧
    (sortCmp a b = 0 ↔
      (a.points = b.points ∧ a.setsWon = b.setsWon ∧ a.gamesWon = b.gamesWon ∧
        displayName a = displayName b)) := by
  rcases lt_trichotomy (displayName a) (displayName b) with hn | hn | hn
  · have h1 : ¬ displayName b < displayName a := not_lt.mpr hn.le
    have h2 : displayName a ≠ displayName b := ne_of_lt hn
    simp only [sortCmp, localeCmp, hn, h1, h2, if_true, if_false, iff_true, iff_false,
      and_true, and_false, or_false, ne_eq, ite_true, ite_false, not_false_eq_true]
    split_ifs <;> norm_num <;> omega
  · simp only [sortCmp, localeCmp, hn, lt_irrefl, if_false, iff_true, iff_false, and_true,
      and_false, or_false, ne_eq, ite_true, ite_false, ite_self, not_false_eq_true]
    split_ifs <;> norm_num <;> omega
  · have h1 : ¬ displayName a < displayName b := not_lt.mpr hn.le
    have h2 : ¬ displayName a = displayName b := (ne_of_gt hn)
    simp only [sortCmp, localeCmp, hn, h1, h2, if_true, if_false, iff_true, iff_false,
      and_true, and_false, or_false, ne_eq, ite_true, ite_false, not_false_eq_true]
    split_ifs <;> norm_num <;> omega

/-- C1: the ranking comparator places `a` strictly before `b` exactly
when `a` has more points, or equal points and more sets won, or equal
points and sets and more games won, or all three numeric fields equal
and a strictly smaller concatenated display name; and it judges `a` and
`b` equivalent exactly when all three numeric fields and the display
names coincide — in particular, with equal points and sets won, more
games won places a pair strictly above, and the comparator induces a
total order on distinct keys. -/
theorem sortCmp_orders (a b : PairWithStats) :
    (sortCmp a b < 0 ↔
      (b.points < a.points ∨
        (a.points = b.points ∧ b.setsWon < a.setsWon) ∨
        (a.points = b.points ∧ a.setsWon = b.setsWon ∧ b.gamesWon < a.gamesWon) ∨
        (a.points = b.points ∧ a.setsWon = b.setsWon ∧ a.gamesWon = b.gamesWon ∧
          displayName a < displayName b))) ∧
    (sortCmp a b = 0 ↔
      (a.points = b.points ∧ a.setsWon = b.setsWon ∧ a.gamesWon = b.gamesWon ∧
        displayName a = displayName b)) :=
  sortCmp_char a b

/-- The sort key realising the comparator chain as a lexicographic
order: points, sets and games descending (order dual), then the
display name ascending. -/
def sortKey (a : PairWithStats) :
    Lex (OrderDual ℕ × Lex (OrderDual ℕ × Lex (OrderDual ℕ × String))) :=
  toLex (OrderDual.toDual a.points,
    toLex (OrderDual.toDual a.setsWon,
      toLex (OrderDual.toDual a.gamesWon, displayName a)))

/-- The comparator is non-positive exactly when the sort key of `a` is
at most that of `b` in the lexicographic order. -/
lemma sortCmp_le_zero_iff (a b : PairWithStats) :
    sortCmp a b ≤ 0 ↔ sortKey a ≤ sortKey b := by
  have h := sortCmp_char a b
  rw [le_iff_lt_or_eq, h.1, h.2]
  simp only [sortKey, Prod.Lex.le_iff, Prod.Lex.lt_iff, OrderDual.toDual_lt_toDual,
    OrderDual.toDual_inj]
  rcases lt_trichotomy (displayName a) (displayName b) with hn | hn | hn
  · have h1 : displayName a ≤ displayName b := hn.le
    have h2 : displayName a ≠ displayName b := ne_of_lt hn
    simp only [hn, h1, h2, iff_true, iff_false, and_true, and_false, or_false, false_or,
      true_and, false_and, or_true, true_or, not_false_eq_true, not_true_eq_false]
    omega
  · simp only [hn, le_refl, lt_irrefl, iff_true, iff_false, and_true, and_false, or_false,
      false_or, true_and, false_and, not_false_eq_true, not_true_eq_false]
    omega
  · have h1 : ¬ displayName a ≤ displayName b := not_le.mpr hn
    have h2 : ¬ displayName a < displayName b := not_lt.mpr hn.le
    have h3 : displayName a ≠ displayName b := ne_of_gt hn
    simp only [h1, h2, h3, iff_true, iff_false, and_true, and_false, or_false, false_or,
      true_and, false_and, not_false_eq_true, not_true_eq_false]
    omega

lemma sortLe_trans (a b c : PairWithStats) :
    sortLe a b → sortLe b c → sortLe a c := by
  simp only [sortLe, decide_eq_true_eq, sortCmp_le_zero_iff]
  exact le_trans

lemma sortLe_total (a b : PairWithStats) : sortLe a b || sortLe b a := by
  simp only [sortLe, Bool.or_eq_true, decide_eq_true_eq, sortCmp_le_zero_iff]
  exact le_total _ _

/-- Componentwise addition on match aggregates. -/
def addMS (s t : MatchStats) : MatchStats :=
  ⟨s.pair1GamesWon + t.pair1GamesWon, s.pair2GamesWon + t.pair2GamesWon,
    s.pair1SetsWon + t.pair1SetsWon, s.pair2SetsWon + t.pair2SetsWon,
    s.pair1TotalPoints + t.pair1TotalPoints, s.pair2TotalPoints + t.pair2TotalPoints⟩

/-- The contribution of a single game to the match aggregate. -/
def gameDelta (g : Game) : MatchStats := gameStep ⟨0, 0, 0, 0, 0, 0⟩ g

lemma gameStep_eq_addMS (s : MatchStats) (g : Game) :
    gameStep s g = addMS s (gameDelta g) := by
  cases hg : g.is_tie_break <;> simp [gameStep, gameDelta, addMS, hg]

lemma addMS_zero (s : MatchStats) : addMS s ⟨0, 0, 0, 0, 0, 0⟩ = s := by
  simp [addMS]

lemma zero_addMS (s : MatchStats) : addMS ⟨0, 0, 0, 0, 0, 0⟩ s = s := by
  simp [addMS]

lemma addMS_assoc (s t u : MatchStats) :
    addMS (addMS s t) u = addMS s (addMS t u) := by
  simp [addMS, Nat.add_assoc]

lemma addMS_comm (s t : MatchStats) : addMS s t = addMS t s := by
  simp [addMS, Nat.add_comm]

lemma foldl_gameStep_eq (games : List Game) :
    ∀ s : MatchStats,
      games.foldl gameStep s = addMS s (games.foldl gameStep ⟨0, 0, 0, 0, 0, 0⟩) := by
  induction games with
  | nil => intro s; simp [addMS_zero]
  | cons g gs ih =>
      intro s
      simp only [List.foldl_cons]
      rw [ih (gameStep s g), ih (gameStep ⟨0, 0, 0, 0, 0, 0⟩ g),
        gameStep_eq_addMS s g, gameStep_eq_addMS ⟨0, 0, 0, 0, 0, 0⟩ g,
        zero_addMS, addMS_assoc]

lemma gameStep_right_comm (s : MatchStats) (g h : Game) :
    gameStep (gameStep s g) h = gameStep (gameStep s h) g := by
  rw [gameStep_eq_addMS, gameStep_eq_addMS, gameStep_eq_addMS, gameStep_eq_addMS,
    addMS_assoc, addMS_assoc, addMS_comm (gameDelta g) (gameDelta h)]

/-- `calculateMatchStats` is invariant under permutation of its game
list: the fold is a commutative accumulation. -/
lemma calculateMatchStats_perm (m : Match) {gs gs' : List Game} (h : gs.Perm gs') :
    calculateMatchStats m gs = calculateMatchStats m gs' := by
  unfold calculateMatchStats
  exact h.foldl_eq' (fun x _ y _ z => gameStep_right_comm z x y) _

/-- Per-game increment of the pair-1 win counter in `getMatchWinner`. -/
def winDelta1 (g : Game) : Nat :=
  if numOr0 g.pair1_games > numOr0 g.pair2_games then 1 else 0

/-- Per-game increment of the pair-2 win counter in `getMatchWinner`. -/
def winDelta2 (g : Game) : Nat :=
  if numOr0 g.pair2_games > numOr0 g.pair1_games then 1 else 0

lemma winStep_eq (c : Nat × Nat) (g : Game) :
    winStep c g = (c.1 + winDelta1 g, c.2 + winDelta2 g) := by
  unfold winStep winDelta1 winDelta2
  split_ifs <;> simp_all <;> omega

lemma foldl_winStep (games : List Game) :
    ∀ c : Nat × Nat,
      games.foldl winStep c =
        (c.1 + (games.map winDelta1).sum, c.2 + (games.map winDelta2).sum) := by
  induction games with
  | nil => intro c; simp
  | cons g gs ih =>
      intro c
      simp only [List.foldl_cons, List.map_cons, List.sum_cons, ih, winStep_eq]
      simp [Nat.add_assoc]

lemma coreStats_gamesWon (games : List Game) :
    (games.foldl gameStep ⟨0, 0, 0, 0, 0, 0⟩).pair1GamesWon
        = (games.map (fun g => (gameDelta g).pair1GamesWon)).sum ∧
    (games.foldl gameStep ⟨0, 0, 0, 0, 0, 0⟩).pair2GamesWon
        = (games.map (fun g => (gameDelta g).pair2GamesWon)).sum := by
  induction games with
  | nil => simp
  | cons g gs ih =>
      simp only [List.foldl_cons, List.map_cons, List.sum_cons]
      rw [foldl_gameStep_eq gs (gameStep ⟨0, 0, 0, 0, 0, 0⟩ g)]
      constructor
      · show (addMS (gameDelta g) _).pair1GamesWon = _
        simp [addMS, ih.1]
      · show (addMS (gameDelta g) _).pair2GamesWon = _
        simp [addMS, ih.2]

lemma gameDelta_gamesWon_of_normal (g : Game) (h : g.is_tie_break = false) :
    (gameDelta g).pair1GamesWon = winDelta1 g ∧
    (gameDelta g).pair2GamesWon = winDelta2 g := by
  constructor <;> simp [gameDelta, gameStep, winDelta1, winDelta2, h]

/-- A tie-break game whose stored normal-game scores are both zero but
whose tie-break points name pair 1 the winner. -/
def gTBwin : Game := ⟨"g4", "m1", 1, true, some 0, some 0, some 7, some 5⟩

/-- Counterexample to C4: on a single tie-break game the section 4.1
interpreter credits pair 1 one game won, yet `getMatchWinner` compares
only the `pair1_games` and `pair2_games` fields and reports a tie; and
an empty game list yields `none` rather than a tie outcome. -/
theorem getMatchWinner_counterexample :
    (calculateMatchStats mA [gTBwin]).pair1GamesWon = 1 ∧
    (calculateMatchStats mA [gTBwin]).pair2GamesWon = 0 ∧
    getMatchWinner [gTBwin] = some ⟨"tie", 0, 0⟩ ∧
    getMatchWinner ([] : List Game) = none := by
  refine ⟨by decide, by decide, by decide, rfl⟩

/-- C4 (amended): `getMatchWinner` decides the displayed outcome from
per-game comparisons of `pair1_games` against `pair2_games` only; on a
non-empty list of normal (non-tie-break) games this coincides with
comparing the aggregated games-won counts of the section 4.1
interpreter, strictly greater winning and equality giving `"tie"`,
while an empty game list yields `none`. -/
theorem getMatchWinner_amended (m : Match) (games : List Game)
    (hne : games ≠ [])
    (hnormal : ∀ g ∈ games, g.is_tie_break = false) :
    getMatchWinner games =
      some ⟨(if (calculateMatchStats m games).pair1GamesWon >
                (calculateMatchStats m games).pair2GamesWon then "pair1"
             else if (calculateMatchStats m games).pair2GamesWon >
                (calculateMatchStats m games).pair1GamesWon then "pair2"
             else "tie"),
            (calculateMatchStats m games).pair1GamesWon,
            (calculateMatchStats m games).pair2GamesWon⟩ := by
  have hmap1 : games.map winDelta1 = games.map (fun g => (gameDelta g).pair1GamesWon) :=
    List.map_congr_left fun g hg =>
      ((gameDelta_gamesWon_of_normal g (hnormal g hg)).1).symm
  have hmap2 : games.map winDelta2 = games.map (fun g => (gameDelta g).pair2GamesWon) :=
    List.map_congr_left fun g hg =>
      ((gameDelta_gamesWon_of_normal g (hnormal g hg)).2).symm
  have hc : games.foldl winStep (0, 0) =
      ((calculateMatchStats m games).pair1GamesWon,
        (calculateMatchStats m games).pair2GamesWon) := by
    rw [foldl_winStep]
    unfold calculateMatchStats
    rw [(coreStats_gamesWon games).1, (coreStats_gamesWon games).2, hmap1, hmap2]
    simp
  have hlen : ¬ games.length = 0 := by
    simpa [List.length_eq_zero] using hne
  unfold getMatchWinner
  rw [if_neg hlen, hc]
  dsimp only
  split_ifs <;> rfl

/-- Witness for the amended C4: on the single normal 6-to-7 game the
displayed outcome is a pair-2 win with counters 0 and 1, agreeing with
the aggregated games won. -/
theorem getMatchWinner_amended_witness :
    getMatchWinner [gN67] = some ⟨"pair2", 0, 1⟩ := by
  rw [getMatchWinner_amended mA [gN67] (by decide)
    (by intro g hg; simp only [List.mem_singleton] at hg; subst hg; rfl)]
  decide

lemma updAt_isSome (σ : StatsMap) (k : String) (f : Stats → Stats) (x : String) :
    (updAt σ k f x).isSome = (σ x).isSome := by
  unfold updAt
  split
  · cases σ x <;> simp
  · rfl

lemma matchStep_isSome (gs : List Game) (σ : StatsMap) (m : Match) (x : String) :
    (matchStep gs σ m x).isSome = (σ x).isSome := by
  unfold matchStep
  split_ifs <;> (try simp [updAt_isSome]) <;> (try split_ifs) <;> simp [updAt_isSome]

lemma foldl_matchStep_isSome (gs : List Game) (ms : List Match) :
    ∀ (σ : StatsMap) (x : String),
      ((ms.foldl (matchStep gs) σ) x).isSome = (σ x).isSome := by
  induction ms with
  | nil => intro σ x; rfl
  | cons m ms ih =>
      intro σ x
      simp only [List.foldl_cons]
      rw [ih, matchStep_isSome]

/-- A match that is not finished never touches the accumulator map. -/
lemma matchStep_of_not_finished {m : Match} (gs : List Game) (σ : StatsMap)
    (h : m.status ≠ "finished") : matchStep gs σ m = σ := by
  unfold matchStep
  simp [h]

/-- A match with no recorded games never touches the accumulator map. -/
lemma matchStep_of_no_games {m : Match} {gs : List Game} (σ : StatsMap)
    (h : gs.filter (fun g => g.match_id == m.id) = []) : matchStep gs σ m = σ := by
  unfold matchStep
  simp [h]

/-- A match one of whose pair ids is absent from the map never touches
the accumulator map. -/
lemma matchStep_of_missing {m : Match} (gs : List Game) (σ : StatsMap)
    (h : σ m.pair1_id = none ∨ σ m.pair2_id = none) : matchStep gs σ m = σ := by
  unfold matchStep
  rcases h with h | h <;> simp [h]

lemma foldl_matchStep_noop (gs : List Game) (ms : List Match)
    (h : ∀ m ∈ ms, ∀ σ : StatsMap, matchStep gs σ m = σ) :
    ∀ σ : StatsMap, ms.foldl (matchStep gs) σ = σ := by
  induction ms with
  | nil => intro σ; rfl
  | cons m ms ih =>
      intro σ
      simp only [List.foldl_cons]
      rw [h m (List.mem_cons_self m ms) σ]
      exact ih (fun m hm σ => h m (List.mem_cons_of_mem _ hm) σ) σ

lemma pairStatsInit_of_mem {pairs : List Pair} {p : Pair} (h : p ∈ pairs) :
    pairStatsInit pairs p.id = some zeroStats := by
  unfold pairStatsInit
  have ha : pairs.any (fun q => q.id == p.id) = true :=
    List.any_eq_true.mpr ⟨p, h, by simp⟩
  simp [ha]

/-- Normal form of `pairsWithStats`: the early all-zero return coincides
with reading the accumulator map, so every branch is one row per pair
carrying the map entry for its id. -/
lemma pairsWithStats_eq_rows (pairs : List Pair) (ms : List Match) (gs : List Game) :
    pairsWithStats pairs ms gs =
      pairs.map (fun p => withStats p ((pairStatsMap pairs ms gs p.id).getD zeroStats)) := by
  unfold pairsWithStats
  split_ifs with h
  · rcases h with h | h
    · have he := List.length_eq_zero.mp h
      subst he
      simp
    · have he := List.length_eq_zero.mp h
      subst he
      refine List.map_congr_left fun p hp => ?_
      unfold pairStatsMap
      simp only [List.foldl_nil]
      rw [pairStatsInit_of_mem hp]
      rfl
  · rfl

/-- C5: a match that is not finished, or is finished but has no recorded
games, contributes nothing: removing it from the match list leaves the
computed standings — every pair's gamesWon, setsWon, points and
matchesPlayed, and the order — unchanged. -/
theorem non_contributing_match_removal (pairs : List Pair) (ms1 ms2 : List Match)
    (m : Match) (gs : List Game)
    (h : m.status ≠ "finished" ∨ gs.filter (fun g => g.match_id == m.id) = []) :
    computeStandings pairs (ms1 ++ m :: ms2) gs = computeStandings pairs (ms1 ++ ms2) gs := by
  have hno : ∀ σ : StatsMap, matchStep gs σ m = σ := by
    intro σ
    rcases h with h | h
    · exact matchStep_of_not_finished gs σ h
    · exact matchStep_of_no_games σ h
  have hmap : pairStatsMap pairs (ms1 ++ m :: ms2) gs = pairStatsMap pairs (ms1 ++ ms2) gs := by
    unfold pairStatsMap
    rw [List.foldl_append, List.foldl_append, List.foldl_cons, hno]
  unfold computeStandings
  rw [pairsWithStats_eq_rows, pairsWithStats_eq_rows, hmap]

/-- A sample pair with id `"a"`. -/
def pA : Pair := ⟨"a", "t1", "j1", "j2", "Ana", "Bea"⟩

/-- A sample pair with id `"b"`. -/
def pB : Pair := ⟨"b", "t1", "j3", "j4", "Cleo", "Dana"⟩

/-- A match between the sample pairs that is still in progress. -/
def mInProg : Match := ⟨"m2", "t1", "a", "b", 1, 1, "in_progress"⟩

/-- A game recorded under the in-progress sample match. -/
def gM2 : Game := ⟨"g5", "m2", 1, false, some 6, some 3, none, none⟩

/-- Witness for C5: removing the in-progress match (with a recorded
game) from the tournament leaves the standings unchanged. -/
theorem non_contributing_match_removal_witness :
    mInProg.status ≠ "finished" ∧
    computeStandings [pA, pB] [mInProg] [gM2] = computeStandings [pA, pB] [] [gM2] :=
  ⟨by decide,
    non_contributing_match_removal [pA, pB] [] [] mInProg [gM2] (Or.inl (by decide))⟩

/-- C9: a finished match that references a pair id absent from the pair
list is skipped without failing: removing it from the match list leaves
every pair's computed statistics and the order unchanged. -/
theorem missing_pair_match_removal (pairs : List Pair) (ms1 ms2 : List Match)
    (m : Match) (gs : List Game)
    (h : (∀ p ∈ pairs, p.id ≠ m.pair1_id) ∨ (∀ p ∈ pairs, p.id ≠ m.pair2_id)) :
    computeStandings pairs (ms1 ++ m :: ms2) gs = computeStandings pairs (ms1 ++ ms2) gs := by
  have hinit : pairStatsInit pairs m.pair1_id = none ∨ pairStatsInit pairs m.pair2_id = none := by
    rcases h with h | h
    · left
      unfold pairStatsInit
      have ha : pairs.any (fun q => q.id == m.pair1_id) = false := by
        rw [List.any_eq_false]
        intro p hp
        simpa using h p hp
      simp [ha]
    · right
      unfold pairStatsInit
      have ha : pairs.any (fun q => q.id == m.pair2_id) = false := by
        rw [List.any_eq_false]
        intro p hp
        simpa using h p hp
      simp [ha]
  have hmid : matchStep gs (ms1.foldl (matchStep gs) (pairStatsInit pairs)) m =
      ms1.foldl (matchStep gs) (pairStatsInit pairs) := by
    apply matchStep_of_missing
    rcases hinit with h0 | h0
    · left
      have hs := foldl_matchStep_isSome gs ms1 (pairStatsInit pairs) m.pair1_id
      rw [h0] at hs
      exact Option.not_isSome_iff_eq_none.mp (by simp [hs])
    · right
      have hs := foldl_matchStep_isSome gs ms1 (pairStatsInit pairs) m.pair2_id
      rw [h0] at hs
      exact Option.not_isSome_iff_eq_none.mp (by simp [hs])
  have hmap : pairStatsMap pairs (ms1 ++ m :: ms2) gs = pairStatsMap pairs (ms1 ++ ms2) gs := by
    unfold pairStatsMap
    rw [List.foldl_append, List.foldl_append, List.foldl_cons, hmid]
  unfold computeStandings
  rw [pairsWithStats_eq_rows, pairsWithStats_eq_rows, hmap]

/-- A finished match referencing the absent pair id `"zz"`. -/
def mGhost : Match := ⟨"m3", "t1", "zz", "b", 1, 2, "finished"⟩

/-- A game recorded under the ghost-referencing match. -/
def gM3 : Game := ⟨"g6", "m3", 1, false, some 6, some 0, none, none⟩

/-- Witness for C9: the finished match whose `pair1_id` is `"zz"`, an id
no pair carries, changes nothing when removed. -/
theorem missing_pair_match_removal_witness :
    (∀ p ∈ [pA, pB], p.id ≠ mGhost.pair1_id) ∧
    computeStandings [pA, pB] [mGhost] [gM3] = computeStandings [pA, pB] [] [gM3] :=
  ⟨by decide,
    missing_pair_match_removal [pA, pB] [] [] mGhost [gM3] (Or.inl (by decide))⟩

lemma sortCmp_of_eq_stats (a b : PairWithStats)
    (hp : a.points = b.points) (hs : a.setsWon = b.setsWon) (hg : a.gamesWon = b.gamesWon) :
    sortCmp a b = localeCmp (displayName a) (displayName b) := by
  unfold sortCmp
  simp [hp, hs, hg]

/-- C6: with a non-empty pair list and no finished matches, the
standings list the sort of the all-zero rows, contain exactly one entry
per input pair with all four statistics zero, and are ordered solely by
the ascending name comparator. -/
theorem zero_default_standings (pairs : List Pair) (ms : List Match) (gs : List Game)
    (_hpne : pairs ≠ [])
    (h : ∀ m ∈ ms, m.status ≠ "finished") :
    computeStandings pairs ms gs = (pairs.map (fun p => withStats p zeroStats)).mergeSort sortLe ∧
    (computeStandings pairs ms gs).Perm (pairs.map (fun p => withStats p zeroStats)) ∧
    (∀ e ∈ computeStandings pairs ms gs,
      e.gamesWon = 0 ∧ e.setsWon = 0 ∧ e.points = 0 ∧ e.matchesPlayed = 0) ∧
    (computeStandings pairs ms gs).Pairwise
      (fun a b => localeCmp (displayName a) (displayName b) ≤ 0) := by
  have hmap : pairStatsMap pairs ms gs = pairStatsInit pairs := by
    unfold pairStatsMap
    exact foldl_matchStep_noop gs ms
      (fun m hm σ => matchStep_of_not_finished gs σ (h m hm)) _
  have hrows : pairsWithStats pairs ms gs = pairs.map (fun p => withStats p zeroStats) := by
    rw [pairsWithStats_eq_rows]
    refine List.map_congr_left fun p hp => ?_
    rw [hmap, pairStatsInit_of_mem hp]
    rfl
  have hstand : computeStandings pairs ms gs =
      (pairs.map (fun p => withStats p zeroStats)).mergeSort sortLe := by
    unfold computeStandings
    rw [hrows]
  have hzero : ∀ e ∈ computeStandings pairs ms gs,
      e.gamesWon = 0 ∧ e.setsWon = 0 ∧ e.points = 0 ∧ e.matchesPlayed = 0 := by
    intro e he
    rw [hstand] at he
    rw [List.mem_mergeSort] at he
    obtain ⟨p, _, hpe⟩ := List.mem_map.mp he
    subst hpe
    exact ⟨rfl, rfl, rfl, rfl⟩
  refine ⟨hstand, ?_, hzero, ?_⟩
  · rw [hstand]
    exact List.mergeSort_perm _ _
  · have hsorted : (computeStandings pairs ms gs).Pairwise (fun a b => sortLe a b = true) := by
      rw [hstand]
      exact List.sorted_mergeSort sortLe_trans sortLe_total _
    refine hsorted.imp_of_mem ?_
    intro a b ha hb hab
    have hza := hzero a ha
    have hzb := hzero b hb
    have hcmp : sortCmp a b = localeCmp (displayName a) (displayName b) :=
      sortCmp_of_eq_stats a b (by omega) (by omega) (by omega)
    have : sortCmp a b ≤ 0 := by
      simpa [sortLe, decide_eq_true_eq] using hab
    rw [hcmp] at this
    exact this

/-- Witness for C6: with two pairs and only an in-progress match the
standings are the sorted all-zero rows. -/
theorem zero_default_standings_witness :
    computeStandings [pA, pB] [mInProg] [gM2] =
      ([pA, pB].map (fun p => withStats p zeroStats)).mergeSort sortLe :=
  (zero_default_standings [pA, pB] [mInProg] [gM2] (by decide) (by decide)).1

/-- The guard of the accumulation block: the match is finished, has at
least one recorded game, and both its pair ids are present in the map. -/
abbrev touches (gs : List Game) (m : Match) (σ : StatsMap) : Prop :=
  m.status = "finished" ∧
  (gs.filter (fun g => g.match_id == m.id)).length > 0 ∧
  (σ m.pair1_id).isSome = true ∧ (σ m.pair2_id).isSome = true

/-- The accumulation block itself: both sides' deltas written into the
map. -/
def matchApply (gs : List Game) (m : Match) (σ : StatsMap) : StatsMap :=
  updAt (updAt σ m.pair1_id
      (addSide1 (calculateMatchStats m (gs.filter (fun g => g.match_id == m.id)))))
    m.pair2_id
    (addSide2 (calculateMatchStats m (gs.filter (fun g => g.match_id == m.id))))

lemma matchStep_char (gs : List Game) (σ : StatsMap) (m : Match) :
    matchStep gs σ m = if touches gs m σ then matchApply gs m σ else σ := by
  unfold matchStep matchApply
  by_cases h1 : m.status = "finished" <;>
    by_cases h2 : (gs.filter (fun g => g.match_id == m.id)).length > 0 <;>
      by_cases h3 : (σ m.pair1_id).isSome = true <;>
        by_cases h4 : (σ m.pair2_id).isSome = true <;>
          simp [touches, h1, h2, h3, h4]

lemma touches_congr {gs : List Game} {m : Match} {σ σ' : StatsMap}
    (h : ∀ x, (σ' x).isSome = (σ x).isSome) : touches gs m σ' ↔ touches gs m σ := by
  unfold touches
  rw [h, h]

lemma matchApply_isSome (gs : List Game) (m : Match) (σ : StatsMap) (x : String) :
    (matchApply gs m σ x).isSome = (σ x).isSome := by
  simp [matchApply, updAt_isSome]

lemma updAt_comm (σ : StatsMap) (k k' : String) (f f' : Stats → Stats)
    (hcomm : ∀ s, f (f' s) = f' (f s)) :
    updAt (updAt σ k f) k' f' = updAt (updAt σ k' f') k f := by
  funext x
  unfold updAt
  split_ifs <;> cases σ x <;> simp [hcomm]

lemma matchApply_comm (gs : List Game) (m m' : Match) (σ : StatsMap) :
    matchApply gs m (matchApply gs m' σ) = matchApply gs m' (matchApply gs m σ) := by
  funext x
  unfold matchApply updAt
  split_ifs <;> cases σ x <;> simp [addSide1, addSide2] <;> omega

lemma matchStep_right_comm (gs : List Game) (σ : StatsMap) (m m' : Match) :
    matchStep gs (matchStep gs σ m) m' = matchStep gs (matchStep gs σ m') m := by
  by_cases hA : touches gs m σ <;> by_cases hB : touches gs m' σ
  · rw [matchStep_char gs σ m, if_pos hA, matchStep_char gs σ m', if_pos hB,
      matchStep_char gs (matchApply gs m σ) m', matchStep_char gs (matchApply gs m' σ) m,
      if_pos ((touches_congr (matchApply_isSome gs m σ)).mpr hB),
      if_pos ((touches_congr (matchApply_isSome gs m' σ)).mpr hA)]
    exact matchApply_comm gs m' m σ
  · rw [matchStep_char gs σ m', if_neg hB, matchStep_char gs (matchStep gs σ m) m',
      if_neg (fun hc => hB ((touches_congr (fun x => matchStep_isSome gs σ m x)).mp hc))]
  · rw [matchStep_char gs σ m, if_neg hA, matchStep_char gs (matchStep gs σ m') m,
      if_neg (fun hc => hA ((touches_congr (fun x => matchStep_isSome gs σ m' x)).mp hc))]
  · rw [matchStep_char gs σ m, if_neg hA, matchStep_char gs σ m', if_neg hB,
      matchStep_char gs σ m, if_neg hA]

lemma matchStep_games_perm {gs gs' : List Game} (hg : gs.Perm gs')
    (σ : StatsMap) (m : Match) : matchStep gs σ m = matchStep gs' σ m := by
  have hperm := hg.filter (fun g => g.match_id == m.id)
  unfold matchStep
  simp only [hperm.length_eq, calculateMatchStats_perm m hperm]

lemma pairStatsInit_perm {pairs pairs' : List Pair} (hp : pairs.Perm pairs') :
    pairStatsInit pairs = pairStatsInit pairs' := by
  funext k
  unfold pairStatsInit
  have ha : pairs.any (fun p => p.id == k) = pairs'.any (fun p => p.id == k) := by
    rw [Bool.eq_iff_iff, List.any_eq_true, List.any_eq_true]
    constructor <;> rintro ⟨x, hx, hfx⟩
    · exact ⟨x, hp.mem_iff.mp hx, hfx⟩
    · exact ⟨x, hp.mem_iff.mpr hx, hfx⟩
  rw [ha]

lemma pairStatsMap_perm {pairs pairs' : List Pair} {ms ms' : List Match}
    {gs gs' : List Game} (hp : pairs.Perm pairs') (hm : ms.Perm ms') (hg : gs.Perm gs') :
    pairStatsMap pairs' ms' gs' = pairStatsMap pairs ms gs := by
  unfold pairStatsMap
  rw [← pairStatsInit_perm hp]
  have h1 : matchStep gs' = matchStep gs :=
    funext fun σ => funext fun m => (matchStep_games_perm hg σ m).symm
  rw [h1]
  exact (hm.foldl_eq' (fun x _ y _ σ => matchStep_right_comm gs σ x y) _).symm

/-- A pair with the same display names as `pN2` but a distinct id. -/
def pN1 : Pair := ⟨"n1", "t1", "x1", "x2", "Ana", "Bea"⟩

/-- A pair with the same display names as `pN1` but a distinct id. -/
def pN2 : Pair := ⟨"n2", "t1", "x3", "x4", "Ana", "Bea"⟩

/-- Counterexample to C7: permuting the pairs input array does change
the output when two distinct pairs tie on every comparator key — the
stable sort preserves the input order of the tied rows, so the two
orderings of the same pair set yield different standings lists. -/
theorem computeStandings_pairs_perm_counterexample :
    ([pN2, pN1].Perm [pN1, pN2]) ∧
    computeStandings [pN2, pN1] [] [] ≠ computeStandings [pN1, pN2] [] [] := by
  refine ⟨List.Perm.swap pN1 pN2 [], ?_⟩
  have hLe : ∀ p q : Pair,
      displayName (withStats p zeroStats) = displayName (withStats q zeroStats) →
      sortLe (withStats p zeroStats) (withStats q zeroStats) = true := by
    intro p q hd
    have hc : sortCmp (withStats p zeroStats) (withStats q zeroStats) =
        localeCmp (displayName (withStats p zeroStats))
          (displayName (withStats q zeroStats)) :=
      sortCmp_of_eq_stats _ _ rfl rfl rfl
    rw [hd] at hc
    simp [sortLe, hc, localeCmp]
  have he1 : pairsWithStats [pN2, pN1] [] [] =
      [withStats pN2 zeroStats, withStats pN1 zeroStats] := rfl
  have he2 : pairsWithStats [pN1, pN2] [] [] =
      [withStats pN1 zeroStats, withStats pN2 zeroStats] := rfl
  have h1 : computeStandings [pN2, pN1] [] [] =
      [withStats pN2 zeroStats, withStats pN1 zeroStats] := by
    unfold computeStandings
    rw [he1]
    apply List.mergeSort_of_sorted
    refine List.Pairwise.cons ?_ (List.Pairwise.cons (by simp) List.Pairwise.nil)
    intro y hy
    simp only [List.mem_singleton] at hy
    subst hy
    exact hLe pN2 pN1 rfl
  have h2 : computeStandings [pN1, pN2] [] [] =
      [withStats pN1 zeroStats, withStats pN2 zeroStats] := by
    unfold computeStandings
    rw [he2]
    apply List.mergeSort_of_sorted
    refine List.Pairwise.cons ?_ (List.Pairwise.cons (by simp) List.Pairwise.nil)
    intro y hy
    simp only [List.mem_singleton] at hy
    subst hy
    exact hLe pN1 pN2 rfl
  rw [h1, h2]
  intro hcontra
  have hid : pN2.id = pN1.id := congrArg (fun l => (l.map PairWithStats.id).headD "") hcontra
  simp [pN1, pN2] at hid

/-- C7 (amended): permuting the matches list or the games list leaves
the standings literally unchanged; permuting the pairs input array
leaves the accumulator map unchanged (so every pair keeps identical
statistics) and permutes the output rows, but may reorder rows that tie
on all comparator keys. -/
theorem computeStandings_perm (pairs pairs' : List Pair) (ms ms' : List Match)
    (gs gs' : List Game)
    (hp : pairs.Perm pairs') (hm : ms.Perm ms') (hg : gs.Perm gs') :
    computeStandings pairs ms' gs' = computeStandings pairs ms gs ∧
    (computeStandings pairs' ms' gs').Perm (computeStandings pairs ms gs) ∧
    pairStatsMap pairs' ms' gs' = pairStatsMap pairs ms gs := by
  have hmap0 : pairStatsMap pairs ms' gs' = pairStatsMap pairs ms gs :=
    pairStatsMap_perm (List.Perm.refl pairs) hm hg
  have hmap : pairStatsMap pairs' ms' gs' = pairStatsMap pairs ms gs :=
    pairStatsMap_perm hp hm hg
  refine ⟨?_, ?_, hmap⟩
  · unfold computeStandings
    rw [pairsWithStats_eq_rows, pairsWithStats_eq_rows, hmap0]
  · unfold computeStandings
    refine ((List.mergeSort_perm _ _).trans ?_).trans (List.mergeSort_perm _ _).symm
    rw [pairsWithStats_eq_rows, pairsWithStats_eq_rows, hmap]
    exact (hp.map _).symm

/-- Witness for the amended C7: concrete two-pair, two-match, two-game
data with all three inputs reversed. -/
theorem computeStandings_perm_witness :
    computeStandings [pA, pB] [mGhost, mInProg] [gM3, gM2] =
      computeStandings [pA, pB] [mInProg, mGhost] [gM2, gM3] ∧
    (computeStandings [pB, pA] [mGhost, mInProg] [gM3, gM2]).Perm
      (computeStandings [pA, pB] [mInProg, mGhost] [gM2, gM3]) := by
  have h := computeStandings_perm [pA, pB] [pB, pA] [mInProg, mGhost] [mGhost, mInProg]
    [gM2, gM3] [gM3, gM2]
    (List.Perm.swap pB pA []) (List.Perm.swap mGhost mInProg []) (List.Perm.swap gM3 gM2 [])
  exact ⟨h.1, h.2.1⟩

/-- Total `matchesPlayed` over the standings rows whose id is `k`. -/
def matchesPlayedOf (l : List PairWithStats) (k : String) : Nat :=
  ((l.filter (fun e => e.id == k)).map (fun e => e.matchesPlayed)).sum

lemma matchesPlayedOf_perm {l l' : List PairWithStats} (h : l.Perm l') (k : String) :
    matchesPlayedOf l k = matchesPlayedOf l' k := by
  unfold matchesPlayedOf
  exact ((h.filter _).map _).sum_eq

lemma matchesPlayedOf_computeStandings (pairs : List Pair) (ms : List Match)
    (gs : List Game) (k : String) :
    matchesPlayedOf (computeStandings pairs ms gs) k =
      matchesPlayedOf (pairsWithStats pairs ms gs) k :=
  matchesPlayedOf_perm (List.mergeSort_perm _ _) k

/-- The finished twin of the in-progress sample match. -/
def mFin : Match := ⟨"m2", "t1", "a", "b", 1, 1, "finished"⟩

/-- Counterexample to C8: toggling a finished match with zero recorded
games between finished and in-progress does not change matchesPlayed at
all — the sum over both pairs stays equal instead of rising by 2. -/
theorem matchesPlayed_toggle_counterexample :
    mFin = { mInProg with status := "finished" } ∧
    matchesPlayedOf (computeStandings [pA, pB] [mFin] []) "a" +
        matchesPlayedOf (computeStandings [pA, pB] [mFin] []) "b" =
      matchesPlayedOf (computeStandings [pA, pB] [mInProg] []) "a" +
        matchesPlayedOf (computeStandings [pA, pB] [mInProg] []) "b" := by
  refine ⟨rfl, ?_⟩
  rw [matchesPlayedOf_computeStandings, matchesPlayedOf_computeStandings,
    matchesPlayedOf_computeStandings, matchesPlayedOf_computeStandings]
  decide

lemma addSide1_addSide1_comm (a b : MatchStats) (s : Stats) :
    addSide1 a (addSide1 b s) = addSide1 b (addSide1 a s) := by
  simp [addSide1]
  omega

lemma addSide1_addSide2_comm (a b : MatchStats) (s : Stats) :
    addSide1 a (addSide2 b s) = addSide2 b (addSide1 a s) := by
  simp [addSide1, addSide2]
  omega

lemma addSide2_addSide2_comm (a b : MatchStats) (s : Stats) :
    addSide2 a (addSide2 b s) = addSide2 b (addSide2 a s) := by
  simp [addSide2]
  omega

lemma pairStatsMap_isSome (pairs : List Pair) (ms : List Match) (gs : List Game)
    (x : String) :
    ((pairStatsMap pairs ms gs) x).isSome = (pairStatsInit pairs x).isSome :=
  foldl_matchStep_isSome gs ms (pairStatsInit pairs) x

lemma matchStep_updAt (gs : List Game) (m : Match) (σ : StatsMap) (k : String)
    (f : Stats → Stats)
    (hc1 : ∀ (t : MatchStats) (s : Stats), f (addSide1 t s) = addSide1 t (f s))
    (hc2 : ∀ (t : MatchStats) (s : Stats), f (addSide2 t s) = addSide2 t (f s)) :
    matchStep gs (updAt σ k f) m = updAt (matchStep gs σ m) k f := by
  rw [matchStep_char gs (updAt σ k f) m, matchStep_char gs σ m]
  by_cases ht : touches gs m σ
  · rw [if_pos ((touches_congr (updAt_isSome σ k f)).mpr ht), if_pos ht]
    unfold matchApply
    rw [updAt_comm σ k m.pair1_id f _ (fun s => hc1 _ s),
      updAt_comm _ k m.pair2_id f _ (fun s => hc2 _ s)]
  · rw [if_neg (fun hc => ht ((touches_congr (updAt_isSome σ k f)).mp hc)), if_neg ht]

lemma foldl_matchStep_updAt (gs : List Game) (ms : List Match) (σ : StatsMap)
    (k : String) (f : Stats → Stats)
    (hc1 : ∀ (t : MatchStats) (s : Stats), f (addSide1 t s) = addSide1 t (f s))
    (hc2 : ∀ (t : MatchStats) (s : Stats), f (addSide2 t s) = addSide2 t (f s)) :
    ms.foldl (matchStep gs) (updAt σ k f) = updAt (ms.foldl (matchStep gs) σ) k f := by
  induction ms generalizing σ with
  | nil => rfl
  | cons mm rest ih =>
      simp only [List.foldl_cons]
      rw [matchStep_updAt gs mm σ k f hc1 hc2]
      exact ih _

lemma filter_id_eq_self :
    ∀ {pairs : List Pair} {p : Pair}, (pairs.map Pair.id).Nodup → p ∈ pairs →
      pairs.filter (fun q => q.id == p.id) = [p] := by
  intro pairs
  induction pairs with
  | nil => intro p _ hp; cases hp
  | cons q rest ih =>
      intro p hnodup hp
      have hnd := hnodup
      rw [List.map_cons, List.nodup_cons] at hnd
      rcases List.mem_cons.mp hp with heq | hmem
      · subst heq
        rw [List.filter_cons_of_pos (by simp)]
        have hrest : rest.filter (fun q2 => q2.id == p.id) = [] := by
          rw [List.filter_eq_nil_iff]
          intro a ha hfa
          exact hnd.1 (List.mem_map.mpr ⟨a, ha, by simpa using hfa⟩)
        rw [hrest]
      · have hqne : (q.id == p.id) = false := by
          apply beq_eq_false_iff_ne.mpr
          intro hqp
          exact hnd.1 (hqp ▸ List.mem_map.mpr ⟨p, hmem, rfl⟩)
        rw [List.filter_cons_of_neg (by simp [hqne])]
        exact ih hnd.2 hmem

/-- C8 (amended): for a match with at least one recorded game, whose two
pair ids are distinct and both present among the (distinct-id) pairs,
marking it finished raises each of its two pairs' matchesPlayed by
exactly 1 relative to the in-progress state, so their sum rises by
exactly 2 (equivalently, reopening lowers it by 2); a finished match
with zero games or with a missing or duplicated pair reference
contributes no such change. -/
theorem matchesPlayed_toggle (pairs : List Pair) (ms1 ms2 : List Match)
    (m : Match) (gs : List Game) (p1 p2 : Pair)
    (hstat : m.status = "in_progress")
    (hgames : gs.filter (fun g => g.match_id == m.id) ≠ [])
    (hneq : m.pair1_id ≠ m.pair2_id)
    (hnodup : (pairs.map Pair.id).Nodup)
    (hp1 : p1 ∈ pairs) (hid1 : p1.id = m.pair1_id)
    (hp2 : p2 ∈ pairs) (hid2 : p2.id = m.pair2_id) :
    matchesPlayedOf
        (computeStandings pairs (ms1 ++ { m with status := "finished" } :: ms2) gs)
        m.pair1_id
      = matchesPlayedOf (computeStandings pairs (ms1 ++ m :: ms2) gs) m.pair1_id + 1 ∧
    matchesPlayedOf
        (computeStandings pairs (ms1 ++ { m with status := "finished" } :: ms2) gs)
        m.pair2_id
      = matchesPlayedOf (computeStandings pairs (ms1 ++ m :: ms2) gs) m.pair2_id + 1 ∧
    matchesPlayedOf
        (computeStandings pairs (ms1 ++ { m with status := "finished" } :: ms2) gs)
        m.pair1_id +
      matchesPlayedOf
        (computeStandings pairs (ms1 ++ { m with status := "finished" } :: ms2) gs)
        m.pair2_id
      = matchesPlayedOf (computeStandings pairs (ms1 ++ m :: ms2) gs) m.pair1_id +
        matchesPlayedOf (computeStandings pairs (ms1 ++ m :: ms2) gs) m.pair2_id + 2 := by
  have hfin_ne : m.status ≠ "finished" := by rw [hstat]; decide
  have hrow : ∀ (MS : List Match) (p : Pair), p ∈ pairs →
      matchesPlayedOf (computeStandings pairs MS gs) p.id =
        ((pairStatsMap pairs MS gs p.id).getD zeroStats).matchesPlayed := by
    intro MS p hp
    rw [matchesPlayedOf_computeStandings, pairsWithStats_eq_rows]
    unfold matchesPlayedOf
    rw [List.filter_map]
    have hpred : ((fun e : PairWithStats => e.id == p.id) ∘
        (fun q : Pair => withStats q ((pairStatsMap pairs MS gs q.id).getD zeroStats))) =
        (fun q : Pair => q.id == p.id) := rfl
    rw [hpred, filter_id_eq_self hnodup hp]
    simp [withStats]
  have hσin : pairStatsMap pairs (ms1 ++ m :: ms2) gs =
      ms2.foldl (matchStep gs) (ms1.foldl (matchStep gs) (pairStatsInit pairs)) := by
    unfold pairStatsMap
    rw [List.foldl_append, List.foldl_cons, matchStep_of_not_finished gs _ hfin_ne]
  have h01 : pairStatsInit pairs m.pair1_id = some zeroStats :=
    hid1 ▸ pairStatsInit_of_mem hp1
  have h02 : pairStatsInit pairs m.pair2_id = some zeroStats :=
    hid2 ▸ pairStatsInit_of_mem hp2
  have hpres1 : (ms1.foldl (matchStep gs) (pairStatsInit pairs) m.pair1_id).isSome = true := by
    rw [foldl_matchStep_isSome, h01]
    rfl
  have hpres2 : (ms1.foldl (matchStep gs) (pairStatsInit pairs) m.pair2_id).isSome = true := by
    rw [foldl_matchStep_isSome, h02]
    rfl
  have htouch : touches gs { m with status := "finished" }
      (ms1.foldl (matchStep gs) (pairStatsInit pairs)) := by
    refine ⟨rfl, ?_, hpres1, hpres2⟩
    exact List.length_pos.mpr hgames
  have hσfin : pairStatsMap pairs (ms1 ++ { m with status := "finished" } :: ms2) gs =
      updAt (updAt (ms2.foldl (matchStep gs) (ms1.foldl (matchStep gs) (pairStatsInit pairs)))
          m.pair1_id
          (addSide1 (calculateMatchStats { m with status := "finished" }
            (gs.filter (fun g => g.match_id == m.id)))))
        m.pair2_id
        (addSide2 (calculateMatchStats { m with status := "finished" }
          (gs.filter (fun g => g.match_id == m.id)))) := by
    unfold pairStatsMap
    rw [List.foldl_append, List.foldl_cons, matchStep_char _ _ _, if_pos htouch]
    unfold matchApply
    rw [foldl_matchStep_updAt gs ms2 _ m.pair2_id _
        (fun t s => (addSide1_addSide2_comm t _ s).symm)
        (fun t s => addSide2_addSide2_comm _ t s),
      foldl_matchStep_updAt gs ms2 _ m.pair1_id _
        (fun t s => addSide1_addSide1_comm _ t s)
        (fun t s => addSide1_addSide2_comm _ t s)]
  have e1 : pairStatsMap pairs (ms1 ++ { m with status := "finished" } :: ms2) gs m.pair1_id =
      (pairStatsMap pairs (ms1 ++ m :: ms2) gs m.pair1_id).map
        (addSide1 (calculateMatchStats { m with status := "finished" }
          (gs.filter (fun g => g.match_id == m.id)))) := by
    rw [hσfin, hσin]
    unfold updAt
    simp [hneq]
  have e2 : pairStatsMap pairs (ms1 ++ { m with status := "finished" } :: ms2) gs m.pair2_id =
      (pairStatsMap pairs (ms1 ++ m :: ms2) gs m.pair2_id).map
        (addSide2 (calculateMatchStats { m with status := "finished" }
          (gs.filter (fun g => g.match_id == m.id)))) := by
    rw [hσfin, hσin]
    unfold updAt
    simp [hneq.symm]
  have hex1 : ∃ s, pairStatsMap pairs (ms1 ++ m :: ms2) gs m.pair1_id = some s := by
    have hi := pairStatsMap_isSome pairs (ms1 ++ m :: ms2) gs m.pair1_id
    rw [h01] at hi
    exact Option.isSome_iff_exists.mp (by simp [hi])
  have hex2 : ∃ s, pairStatsMap pairs (ms1 ++ m :: ms2) gs m.pair2_id = some s := by
    have hi := pairStatsMap_isSome pairs (ms1 ++ m :: ms2) gs m.pair2_id
    rw [h02] at hi
    exact Option.isSome_iff_exists.mp (by simp [hi])
  obtain ⟨s1, hs1⟩ := hex1
  obtain ⟨s2, hs2⟩ := hex2
  have r1 := hrow (ms1 ++ m :: ms2) p1 hp1
  have r2 := hrow (ms1 ++ m :: ms2) p2 hp2
  have r1f := hrow (ms1 ++ { m with status := "finished" } :: ms2) p1 hp1
  have r2f := hrow (ms1 ++ { m with status := "finished" } :: ms2) p2 hp2
  rw [hid1] at r1 r1f
  rw [hid2] at r2 r2f
  rw [e1, hs1, Option.map_some'] at r1f
  rw [e2, hs2, Option.map_some'] at r2f
  rw [hs1] at r1
  rw [hs2] at r2
  rw [r1, r2, r1f, r2f]
  simp only [Option.getD_some, addSide1, addSide2, true_and]
  omega

/-- Witness for the amended C8: finishing the sample match (one recorded
game, distinct pair ids both present) raises pair `"a"`'s matchesPlayed
by exactly 1. -/
theorem matchesPlayed_toggle_witness :
    matchesPlayedOf
        (computeStandings [pA, pB] [{ mInProg with status := "finished" }] [gM2]) "a"
      = matchesPlayedOf (computeStandings [pA, pB] [mInProg] [gM2]) "a" + 1 :=
  (matchesPlayed_toggle [pA, pB] [] [] mInProg [gM2] pA pB rfl (by decide) (by decide)
    (by decide) (List.mem_cons_self pA [pB]) rfl
    (List.mem_cons_of_mem pA (List.mem_cons_self pB [])) rfl).1

end PadelRetas
